import Mathlib

/-!
Verification of the CloudForge orchestrator core (a JavaScript repository)
against its natural-language specification, via a shallow embedding of the
relevant source functions in Lean.

Conventions of the embedding:
* JS strings are `String`, JS numbers are `Int` (the programs in question
  only ever handle integral values; `NaN` from `parseInt` is modelled as
  `Option.none` where it can arise).
* A JS value that may be `null`/`undefined` is an `Option`.
* JS truthiness on strings (`""` is falsy) and on numbers (`0` is falsy)
  is made explicit through the helpers `jsOrStr` / `jsOrInt` below.
* Wall-clock effects (`new Date().toISOString()`) are passed in as an
  explicit `now : String` parameter.
-/

set_option maxRecDepth 400000

namespace CloudForge

/-- `v || d` for a possibly-absent JS string: `undefined`/`null` and the
empty string are falsy and yield the default. -/
def jsOrStr (v : Option String) (d : String) : String :=
  match v with
  | some s => if s = "" then d else s
  | none => d

/-- `v || d` for a possibly-absent JS number: `undefined`/`null` and `0`
are falsy and yield the default. -/
def jsOrInt (v : Option Int) (d : Int) : Int :=
  match v with
  | some x => if x = 0 then d else x
  | none => d

/-- `v || null` for a possibly-absent JS string: the empty string
collapses to `null`. -/
def jsOrNull (v : Option String) : Option String :=
  match v with
  | some s => if s = "" then none else some s
  | none => none

/-- The ASCII whitespace characters recognised by the JS `\s` class (the
rarely-seen Unicode space characters are not modelled). -/
def jsIsSpace (c : Char) : Bool :=
  c = ' ' || c = '\t' || c = '\n' || c = '\r' || c = '\x0b' || c = '\x0c'

/-- The JS `\w` class: ASCII letters, digits and underscore. -/
def isWordChar (c : Char) : Bool :=
  ('a' ≤ c && c ≤ 'z') || ('A' ≤ c && c ≤ 'Z') || ('0' ≤ c && c ≤ '9') || c = '_'

def isAsciiDigit (c : Char) : Bool :=
  '0' ≤ c && c ≤ '9'

def digitsToNat (ds : List Char) : Nat :=
  ds.foldl (fun n c => 10 * n + (c.toNat - '0'.toNat)) 0

/-- JS `parseInt(s, 10)`: skip leading whitespace, take an optional sign
and then the longest run of decimal digits; `none` models `NaN` (no
digits at all). -/
def jsParseInt (s : String) : Option Int :=
  let l := s.toList.dropWhile jsIsSpace
  let signAndRest : Int × List Char :=
    match l with
    | '-' :: r => (-1, r)
    | '+' :: r => (1, r)
    | _ => (1, l)
  let ds := signAndRest.2.takeWhile isAsciiDigit
  if ds = [] then none else some (signAndRest.1 * (digitsToNat ds : Int))

/-! ## Workflow definition (src/lib/phases.js: parseWorkflowFile and friends) -/

/-- A parsed workflow phase: `{ name, taskLoop, transitions }`.  The
transitions record maps a condition label to a target phase name, where
`none` is the `END` sentinel (JS `null`). -/
structure PhaseConfig where
  name : String
  taskLoop : Bool
  transitions : List (String × Option String)
deriving Repr, DecidableEq

structure Workflow where
  phases : List PhaseConfig
deriving Repr, DecidableEq

/-- First binding of a condition label in a transitions record
(JS property read `t[cond]`; `none` means the property is absent). -/
def lookupT : List (String × Option String) → String → Option (Option String)
  | [], _ => none
  | (k, v) :: rest, key => if k = key then some v else lookupT rest key

/-- JS property write `t[cond] = target`: overwrite an existing binding
or append a new one. -/
def upsertT : List (String × Option String) → String → Option String →
    List (String × Option String)
  | [], key, target => [(key, target)]
  | (k, v) :: rest, key, target =>
    if k = key then (key, target) :: rest else (k, v) :: upsertT rest key target

/-- JS truthiness of `t[cond]`: the property is present and its value is
a nonempty string (in particular not the `null` used for `END`). -/
def truthyT (t : List (String × Option String)) (key : String) : Bool :=
  match lookupT t key with
  | some (some s) => s != ""
  | _ => false

/-- `t[cond] != null ? t[cond] : null`: collapse an absent property and a
`null` value to `none`. -/
def flatT (t : List (String × Option String)) (key : String) : Option String :=
  (lookupT t key).bind id

/-- `rawLine.replace(/#.*$/, '')`: delete everything from the first `#`. -/
def stripComment (s : String) : String :=
  ⟨s.toList.takeWhile (· ≠ '#')⟩

/-- JS `String.prototype.trim`: strip whitespace from both ends.
(Executable replacement for `String.trim`, which does not reduce inside
the kernel.) -/
def trimChars (l : List Char) : List Char :=
  ((l.dropWhile jsIsSpace).reverse.dropWhile jsIsSpace).reverse

def jsTrim (s : String) : String :=
  ⟨trimChars s.toList⟩

/-- JS `content.split('\n')`. -/
def splitNl : List Char → List (List Char)
  | [] => [[]]
  | c :: rest =>
    match splitNl rest with
    | [] => [[c]]
    | h :: t => if c = '\n' then [] :: h :: t else (c :: h) :: t

/-- ASCII `toLowerCase` / `toUpperCase` (kernel-reducible replacements
for `String.toLower` / `String.toUpper`). -/
def jsToLower (s : String) : String :=
  ⟨s.toList.map Char.toLower⟩

def jsToUpper (s : String) : String :=
  ⟨s.toList.map Char.toUpper⟩

/-- Match of `TRANSITION_REGEX = /^(\*?)(\w+)\s*->\s*(\w+)\s*\[(\w+)\]$/`
against a whole (trimmed) line, returning `(star, from, to, condition)`. -/
def matchTransition (line : String) : Option (Bool × String × String × String) :=
  let l := line.toList
  let starSplit : Bool × List Char :=
    match l with
    | '*' :: rest => (true, rest)
    | _ => (false, l)
  let (w1, r1) := starSplit.2.span isWordChar
  if w1 = [] then none else
  match r1.dropWhile jsIsSpace with
  | '-' :: '>' :: r2 =>
    let (w2, r3) := (r2.dropWhile jsIsSpace).span isWordChar
    if w2 = [] then none else
    match r3.dropWhile jsIsSpace with
    | '[' :: r4 =>
      let (w3, r5) := r4.span isWordChar
      if w3 = [] then none else
      match r5 with
      | [']'] => some (starSplit.1, ⟨w1⟩, ⟨w2⟩, ⟨w3⟩)
      | _ => none
    | _ => none
  | _ => none

/-- One iteration of the `parseWorkflowFile` line loop: strip comments,
trim, skip blank / non-matching lines, then create-or-update the source
phase of the transition (insertion order preserved). -/
def processLine (ps : List PhaseConfig) (rawLine : String) : List PhaseConfig :=
  let line := jsTrim (stripComment rawLine)
  if line = "" then ps else
  match matchTransition line with
  | none => ps
  | some (star, fro, toName, cond) =>
    let target : Option String := if toName = "END" then none else some toName
    let ps' := if ps.any (fun p => p.name = fro) then ps
               else ps ++ [{ name := fro, taskLoop := false, transitions := [] }]
    ps'.map fun p =>
      if p.name = fro then
        { p with taskLoop := p.taskLoop || star,
                 transitions := upsertT p.transitions cond target }
      else p

/-- `parseWorkflowFile(content)`: fold the line processor over the lines
of the file; phases come out in first-appearance order. -/
def parseWorkflowFile (content : String) : Workflow :=
  ⟨((splitNl content.toList).map fun l => (⟨l⟩ : String)).foldl processLine []⟩

/-- `getPhaseConfig(phaseName)`: find-by-name, `null` when unknown. -/
def getPhaseConfig (wf : Workflow) (phaseName : String) : Option PhaseConfig :=
  wf.phases.find? (fun p => p.name = phaseName)

/-- `getFirstPhase()`: name of the first phase, with the JS fallback
`wf.phases[0]?.name || 'DISCOVER'` for an empty (or nameless) phase list. -/
def getFirstPhase (wf : Workflow) : String :=
  jsOrStr (wf.phases.head?.map (·.name)) "DISCOVER"

/-- The status record produced by `parseCloudForgeStatus` (and
synthesized by the scheduler). -/
structure Status where
  phase : Option String
  result : String
  tasksRemaining : Option Int
  summary : String
deriving Repr, DecidableEq

/-- The context object passed to `getNextPhase`.  The scheduler always
populates all four fields with numbers. -/
structure Context where
  subTaskNumber : Int
  totalSubTasks : Int
  retryCount : Int
  maxRetries : Int
deriving Repr, DecidableEq

/-- `getNextPhase(currentPhase, status, context)` from src/lib/phases.js,
with the workflow made an explicit argument (the JS reads it through the
module-level cache). -/
def getNextPhase (wf : Workflow) (currentPhase : String) (status : Option Status)
    (ctx : Context) : Option String :=
  let result := jsOrStr (status.map (·.result)) "DONE"
  match getPhaseConfig wf currentPhase with
  | none => none
  | some config =>
    let t := config.transitions
    if result = "DONE" ∨ result = "BLOCKED" then
      if truthyT t "done_next_subtask" ∧ ctx.subTaskNumber < ctx.totalSubTasks then
        flatT t "done_next_subtask"
      else flatT t "done"
    else if result = "NEEDS_RETRY" then
      if truthyT t "retry_exhausted" ∧ ctx.maxRetries ≤ ctx.retryCount then
        flatT t "retry_exhausted"
      else if truthyT t "done_next_subtask" then
        if ctx.subTaskNumber < ctx.totalSubTasks then flatT t "done_next_subtask"
        else flatT t "done"
      else flatT t "retry"
    else flatT t "retry"

/-! ## Workflow state (src/lib/state.js) -/

structure Tokens where
  input : Int
  output : Int
deriving Repr, DecidableEq

structure HistoryEntry where
  iteration : Int
  phase : String
  result : String
  summary : String
  tokens : Int
deriving Repr, DecidableEq

/-- The durable workflow state record created by `createInitialState`. -/
structure WorkflowState where
  sessionId : Option String
  task : String
  phase : String
  currentSubTask : Int
  totalSubTasks : Int
  iteration : Int
  maxIterations : Int
  maxPhaseRetries : Int
  model : Option String
  totalTokens : Tokens
  history : List HistoryEntry
  completedPhases : List String
  consecutiveRetries : Int
  lastErrors : List String
  startedAt : String
  lastActivity : String
deriving Repr, DecidableEq

/-- The `options` object accepted by `createInitialState`. -/
structure InitOptions where
  initialPhase : Option String
  maxIterations : Option Int
  maxPhaseRetries : Option Int
  model : Option String
deriving Repr, DecidableEq

/-- `createInitialState(task, options)`; `now` stands for
`new Date().toISOString()`. -/
def createInitialState (task : String) (options : InitOptions) (now : String) :
    WorkflowState :=
  { sessionId := none
    task := task
    phase := jsOrStr options.initialPhase "DISCOVER"
    currentSubTask := 0
    totalSubTasks := 0
    iteration := 0
    maxIterations := jsOrInt options.maxIterations 25
    maxPhaseRetries := jsOrInt options.maxPhaseRetries 3
    model := jsOrNull options.model
    totalTokens := ⟨0, 0⟩
    history := []
    completedPhases := []
    consecutiveRetries := 0
    lastErrors := []
    startedAt := now
    lastActivity := now }

/-- `recordIteration(state, phase, result, tokens)`: bump the iteration
counter, refresh `lastActivity`, append a history entry and add the token
deltas to the running totals. -/
def recordIteration (now : String) (s : WorkflowState) (phase : String)
    (result : Option Status) (tokens : Option Tokens) : WorkflowState :=
  let iter := s.iteration + 1
  let tokIn := (tokens.map (·.input)).getD 0
  let tokOut := (tokens.map (·.output)).getD 0
  { s with
    iteration := iter
    lastActivity := now
    history := s.history ++
      [{ iteration := iter
         phase := phase
         result := jsOrStr (result.map (·.result)) "UNKNOWN"
         summary := jsOrStr (result.map (·.summary)) ""
         tokens := tokIn + tokOut }]
    totalTokens := ⟨s.totalTokens.input + tokIn, s.totalTokens.output + tokOut⟩ }

/-- Result of one circuit-breaker check: `{halt: true, reason}` or
`{halt: false}` (the reason property is then absent). -/
structure BreakerResult where
  halt : Bool
  reason : Option String
deriving Repr, DecidableEq

/-- `checkMaxIterations(state)`. -/
def checkMaxIterations (s : WorkflowState) : BreakerResult :=
  if s.maxIterations ≤ s.iteration then
    ⟨true, some ("Max iterations reached (" ++ toString s.maxIterations ++ ")")⟩
  else ⟨false, none⟩

/-- `checkConsecutiveRetries(state, threshold = 3)`. -/
def checkConsecutiveRetries (s : WorkflowState) (threshold : Int) : BreakerResult :=
  if threshold ≤ s.consecutiveRetries then
    ⟨true, some (toString s.consecutiveRetries ++
      " consecutive retries with no progress - possible stuck loop")⟩
  else ⟨false, none⟩

/-- `recent.every((e) => e === recent[0])`. -/
def allSameAsHead (recent : List String) : Bool :=
  match recent with
  | [] => true
  | h :: _ => recent.all (fun e => e = h)

/-- `checkRepeatedErrors(state, threshold = 3)`: look at
`lastErrors.slice(-threshold)` once the list is long enough. -/
def checkRepeatedErrors (s : WorkflowState) (threshold : Nat) : BreakerResult :=
  if s.lastErrors.length < threshold then ⟨false, none⟩
  else
    let recent := s.lastErrors.drop (s.lastErrors.length - threshold)
    if allSameAsHead recent then
      ⟨true, some ("Same error repeated " ++ toString threshold ++ " times: \x22" ++
        (match recent with | [] => "" | h :: _ => h) ++ "\x22")⟩
    else ⟨false, none⟩

/-- `checkCircuitBreaker(state)`: run the three checks in order and
return the first halting result. -/
def checkCircuitBreaker (s : WorkflowState) : BreakerResult :=
  let checks := [checkMaxIterations s, checkConsecutiveRetries s 3,
                 checkRepeatedErrors s 3]
  match checks.find? (·.halt) with
  | some c => c
  | none => ⟨false, none⟩

/-! ## Recovery inference (src/lib/state.js: inferCompletedPhases,
inferResumePhase)

The two functions read the artifact directory through `fs`; the directory
is modelled as the finite data they consult: which `.cloudforge` files
exist with which sizes, and whether `prd/` exists as a directory holding
at least one `.md` file. -/

/-- `ARTIFACT_PHASE_MAP`, in the insertion order of the object literal. -/
def ARTIFACT_PHASE_MAP : List (String × String) :=
  [("requirements.md", "REQUIREMENTS"),
   ("stories.md", "REQUIREMENTS"),
   ("kpis.md", "PRIORITIZE"),
   ("domain.md", "DOMAIN"),
   ("bdd-scenarios.md", "BDD"),
   ("plan.md", "PLAN"),
   ("quality-report.md", "GATE_QUALITY"),
   ("innovation-log.md", "INNOVATE")]

/-- The filesystem facts `inferCompletedPhases` consults. -/
structure RecoveryDir where
  cfDirExists : Bool
  fileSizes : List (String × Nat)
  prdHasMd : Bool
deriving Repr, DecidableEq

/-- Size of a `.cloudforge` file, `none` when the file does not exist. -/
def sizeLookup : List (String × Nat) → String → Option Nat
  | [], _ => none
  | (n, sz) :: rest, name => if n = name then some sz else sizeLookup rest name

/-- The `detectedPhases` set of `inferCompletedPhases`, as an
insertion-ordered duplicate-free list: one entry per artifact file that
exists non-empty, plus `DISCOVER` when `prd/` holds markdown files. -/
def detectedPhases (d : RecoveryDir) : List String :=
  let fromFiles := ARTIFACT_PHASE_MAP.foldl
    (fun acc fp =>
      match sizeLookup d.fileSizes fp.1 with
      | some sz => if 0 < sz then (if fp.2 ∈ acc then acc else acc ++ [fp.2]) else acc
      | none => acc)
    []
  if d.prdHasMd then
    (if "DISCOVER" ∈ fromFiles then fromFiles else fromFiles ++ ["DISCOVER"])
  else fromFiles

/-- JS `Array.prototype.indexOf`: index of the first occurrence, `-1`
when absent. -/
def jsIndexOf : List String → String → Int
  | [], _ => -1
  | h :: t, x =>
    if h = x then 0
    else
      let r := jsIndexOf t x
      if r = -1 then -1 else r + 1

/-- One step of the `latestIndex` / `latestDetectedPhase` loop of
`inferCompletedPhases`: keep the largest workflow index seen so far
(strictly-greater updates). -/
def latestStep (ordered : List String) (acc : Int × Option String)
    (ph : String) : Int × Option String :=
  let idx := jsIndexOf ordered ph
  if acc.1 < idx then (idx, some ph) else acc

/-- The whole scan, starting from `latestIndex = -1`,
`latestDetectedPhase = null`. -/
def latestFold (ordered : List String) (detected : List String) :
    Int × Option String :=
  detected.foldl (latestStep ordered) (-1, none)

structure InferResult where
  completedPhases : List String
  latestDetectedPhase : Option String
deriving Repr, DecidableEq

/-- `inferCompletedPhases(workingDir, orderedPhaseNames)`. -/
def inferCompletedPhases (d : RecoveryDir) (ordered : List String) : InferResult :=
  if !d.cfDirExists then ⟨[], none⟩
  else
    let det := detectedPhases d
    if det = [] then ⟨[], none⟩
    else
      let lf := latestFold ordered det
      ⟨ordered.take lf.1.toNat, lf.2⟩

/-- `inferResumePhase(completedPhases, latestDetectedPhase,
orderedPhaseNames)`; `none` models the `undefined` that JS indexing past
the end would produce. -/
def inferResumePhase (completed : List String) (latest : Option String)
    (ordered : List String) : Option String :=
  match latest with
  | some p => some p
  | none =>
    if completed ≠ [] then
      let maxIdx := completed.foldl
        (fun m ph =>
          let idx := jsIndexOf ordered ph
          if m < idx then idx else m)
        (-1)
      let nextIdx := maxIdx + 1
      if nextIdx < (ordered.length : Int) then ordered[nextIdx.toNat]?
      else ordered.head?
    else ordered.head?

/-! ## Rate-limit detection (src/lib/ratelimit.js)

`RATE_LIMIT_PATTERNS` is a list of regular expressions; each is embedded
here as an executable matcher over the lower-cased character list of the
scanned text (all patterns carry the `i` flag except `/429/`, which
contains no letters, so uniform lower-casing is faithful).  A JS `.`
matches any character except a line terminator. -/

def isNewlineChar (c : Char) : Bool :=
  c = '\n' || c = '\r'

/-- The needle occurs at the very start of the haystack. -/
def litAt (s : String) (l : List Char) : Bool :=
  s.toList.isPrefixOf l

/-- Strip the needle from the start of the haystack, if present. -/
def stripLit (s : String) (l : List Char) : Option (List Char) :=
  if s.toList.isPrefixOf l then some (l.drop s.toList.length) else none

/-- Try the position matcher at every position of the haystack
(the implicit scan a JS regex performs). -/
def scanFor (patAt : List Char → Bool) : List Char → Bool
  | [] => patAt []
  | c :: rest => patAt (c :: rest) || scanFor patAt rest

/-- The needle occurs somewhere in the haystack. -/
def containsLit (s : String) (l : List Char) : Bool :=
  scanFor (litAt s) l

/-- `\s+` followed by the continuation matcher. -/
def wsPlusThen (k : List Char → Bool) : List Char → Bool
  | [] => false
  | c :: rest => jsIsSpace c && (k rest || wsPlusThen k rest)

/-- `.*` (no line terminators) followed by the continuation matcher. -/
def dotStarThen (k : List Char → Bool) : List Char → Bool
  | [] => k []
  | c :: rest => k (c :: rest) || (!isNewlineChar c && dotStarThen k rest)

/-- `/rate.?limit/i` at the current position. -/
def rateOptLimitAt (l : List Char) : Bool :=
  match stripLit "rate" l with
  | none => false
  | some r =>
    litAt "limit" r ||
      (match r with
       | c :: r2 => !isNewlineChar c && litAt "limit" r2
       | [] => false)

/-- `/hit\s+(your|the)\s+limit/i` at the current position. -/
def hitYourTheLimitAt (l : List Char) : Bool :=
  match stripLit "hit" l with
  | none => false
  | some r =>
    wsPlusThen
      (fun r2 =>
        (match stripLit "your" r2 with
         | some r3 => wsPlusThen (litAt "limit") r3
         | none => false) ||
        (match stripLit "the" r2 with
         | some r3 => wsPlusThen (litAt "limit") r3
         | none => false))
      r

/-- `/you've hit.*limit/i` at the current position. -/
def youveHitLimitAt (l : List Char) : Bool :=
  match stripLit "you\x27ve hit" l with
  | some r => dotStarThen (litAt "limit") r
  | none => false

/-- `\b` to the right of the current position: next character is not a
word character (or the input ends). -/
def boundaryAfter (l : List Char) : Bool :=
  match l with
  | [] => true
  | c :: _ => !isWordChar c

/-- `resets?\b` at the current position. -/
def resetsBoundaryAt (l : List Char) : Bool :=
  (match stripLit "resets" l with
   | some r => boundaryAfter r
   | none => false) ||
  (match stripLit "reset" l with
   | some r => boundaryAfter r
   | none => false)

/-- `/limit.*resets?\b/i` at the current position. -/
def limitResetsAt (l : List Char) : Bool :=
  match stripLit "limit" l with
  | some r => dotStarThen resetsBoundaryAt r
  | none => false

/-- `RATE_LIMIT_PATTERNS`, in source order; each entry tests one regex
against a whole (lower-cased) text. -/
def RATE_LIMIT_PATTERNS : List (List Char → Bool) :=
  [scanFor rateOptLimitAt,
   containsLit "429",
   containsLit "too many requests",
   containsLit "overloaded",
   containsLit "capacity",
   containsLit "throttl",
   scanFor hitYourTheLimitAt,
   scanFor youveHitLimitAt,
   scanFor limitResetsAt]

def toLowerList (s : String) : List Char :=
  s.toList.map Char.toLower

/-- `RATE_LIMIT_PATTERNS.some((pat) => pat.test(text))`. -/
def rateLimitTextMatches (s : String) : Bool :=
  RATE_LIMIT_PATTERNS.any (fun p => p (toLowerList s))

/-- The `isRateLimit` component of `detectRateLimit(exitCode, stderr,
output)`.  The accompanying `retryAfter` component calls
`extractRetryAfter`, whose absolute-reset branch reads the wall clock
(`new Date()`), so it is outside the shallow embedding; the claims below
concern only the rate-limit decision. -/
def detectRateLimit (exitCode : Int) (stderr output : String) : Bool :=
  let combined := stderr ++ " " ++ output
  if exitCode ≠ 0 ∧ rateLimitTextMatches combined then true
  else rateLimitTextMatches output

/-! ## Status parsing (src/lib/phases.js: parseCloudForgeStatus)

`CLOUDFORGE_STATUS_REGEX = /CLOUDFORGE_STATUS:\s*\n([\s\S]*?)(?:\n\s*\n|$)/`.
After the literal sentinel, the greedy `\s*` consumes the whitespace run
up to (and the `\n` consumes) the *last* newline inside that run; the
lazy group then captures the shortest block ending before a blank line
(`\n\s*\n`) or, failing that, the rest of the input. -/

/-- The suffix after the last `'\n'` of the run, `none` when the run
contains no newline (in which case `\s*\n` cannot match). -/
def afterLastNl : List Char → Option (List Char)
  | [] => none
  | c :: rest =>
    match afterLastNl rest with
    | some r => some r
    | none => if c = '\n' then some rest else none

/-- Does `\n\s*\n` match at this position? -/
def blankLineAt (l : List Char) : Bool :=
  match l with
  | '\n' :: rest => (rest.takeWhile jsIsSpace).contains '\n'
  | _ => false

/-- The lazy `([\s\S]*?)(?:\n\s*\n|$)` capture: shortest prefix ending
where a blank line starts, else everything. -/
def takeBlock : List Char → List Char
  | [] => []
  | c :: rest => if blankLineAt (c :: rest) then [] else c :: takeBlock rest

/-- Match the part of the regex after the sentinel literal, returning
the captured block. -/
def tailAfterSentinel (rest : List Char) : Option (List Char) :=
  let w := rest.takeWhile jsIsSpace
  match afterLastNl w with
  | none => none
  | some wTail => some (takeBlock (wTail ++ rest.dropWhile jsIsSpace))

/-- Leftmost full match of `CLOUDFORGE_STATUS_REGEX`, returning the
captured block. -/
def findStatusBlock : List Char → Option (List Char)
  | [] => none
  | c :: rest =>
    match stripLit "CLOUDFORGE_STATUS:" (c :: rest) with
    | some after =>
      match tailAfterSentinel after with
      | some block => some block
      | none => findStatusBlock rest
    | none => findStatusBlock rest

/-- Split on the line terminators the `m` flag recognises. -/
def splitLines : List Char → List (List Char)
  | [] => [[]]
  | c :: rest =>
    match splitLines rest with
    | [] => [[c]]
    | h :: t => if c = '\n' || c = '\r' then [] :: h :: t else (c :: h) :: t

/-- Match of `STATUS_FIELD_REGEX = /^\s*(\w+)\s*:\s*(.+)$/` against one
line, returning the lower-cased key and the trimmed value (the source
applies `.toLowerCase()` and `.trim()` to the two captures).  A line
whose value part is empty does not match (`(.+)` needs a character); a
value of only whitespace matches and trims to `""`. -/
def matchFieldLine (line : List Char) : Option (String × String) :=
  let (w, r1) := (line.dropWhile jsIsSpace).span isWordChar
  if w = [] then none else
  match r1.dropWhile jsIsSpace with
  | ':' :: r2 =>
    if r2 = [] then none
    else some (jsToLower ⟨w⟩, jsTrim ⟨r2⟩)
  | _ => none

/-- JS object assignment `fields[key] = value`: last write wins. -/
def upsertField : List (String × String) → String → String →
    List (String × String)
  | [], key, v => [(key, v)]
  | (k, v') :: rest, key, v =>
    if k = key then (key, v) :: rest else (k, v') :: upsertField rest key v

def lookupField : List (String × String) → String → Option String
  | [], _ => none
  | (k, v) :: rest, key => if k = key then some v else lookupField rest key

/-- The `fields` object accumulated by the `STATUS_FIELD_REGEX` loop
over the captured block. -/
def statusFields (block : List Char) : List (String × String) :=
  (splitLines block).foldl
    (fun acc line =>
      match matchFieldLine line with
      | some kv => upsertField acc kv.1 kv.2
      | none => acc)
    []

/-- `parseTasksRemaining(val)`. -/
def parseTasksRemaining (val : Option String) : Option Int :=
  match val with
  | none => none
  | some s => jsParseInt s

/-- `fields.tasks_remaining || fields.tasksremaining`: the first operand
wins unless it is absent or empty. -/
def jsOrOpt (a b : Option String) : Option String :=
  match a with
  | some s => if s = "" then b else some s
  | none => b

/-- `parseCloudForgeStatus(output)`. -/
def parseCloudForgeStatus (output : String) : Option Status :=
  match findStatusBlock output.toList with
  | none => none
  | some block =>
    let fields := statusFields block
    some
      { phase := jsOrNull (lookupField fields "phase")
        result := jsToUpper (jsOrStr (lookupField fields "result") "DONE")
        tasksRemaining := parseTasksRemaining
          (jsOrOpt (lookupField fields "tasks_remaining")
            (lookupField fields "tasksremaining"))
        summary := jsOrStr (lookupField fields "summary") "" }

/-! ## CLI argument parsing (src/forge.js: parseArgs) -/

/-- The `args` object built by `parseArgs`.  Numeric flags hold
`Option Int` because `parseInt` of a malformed value yields `NaN`
(modelled as `none`). -/
structure ParsedArgs where
  task : Option String
  maxIterations : Option Int
  maxPhaseRetries : Option Int
  model : Option String
  workingDir : String
  maxTurns : Option Int
  continueSession : Option String
  dryRun : Bool
  rateLimitWait : Option Int
  cliPath : Option String
  verbose : Bool
deriving Repr, DecidableEq

/-- The defaults `parseArgs` starts from; `cwd` is `process.cwd()`. -/
def initialArgs (cwd : String) : ParsedArgs :=
  { task := none
    maxIterations := some 100
    maxPhaseRetries := some 3
    model := none
    workingDir := cwd
    maxTurns := some 50
    continueSession := none
    dryRun := false
    rateLimitWait := some 43200
    cliPath := none
    verbose := false }

/-- The `parseArgs` argument loop.  `none` models the control paths that
leave the function abnormally: `--help`/`-h` (which call
`process.exit(0)`) and `--working-dir` without a value (where
`path.resolve(undefined)` throws).  A flag that takes a value and sits
last in `argv` reads `undefined`; `parseInt(undefined, 10)` is `NaN`.
`path.resolve` itself is kept abstract: the working directory is stored
as the given path string. -/
def parseArgsGo (a : ParsedArgs) (positional : List String) :
    List String → Option (ParsedArgs × List String)
  | [] => some (a, positional)
  | arg :: rest =>
    if arg = "--max-iterations" then
      match rest with
      | v :: rest' => parseArgsGo { a with maxIterations := jsParseInt v } positional rest'
      | [] => some ({ a with maxIterations := none }, positional)
    else if arg = "--max-phase-retries" then
      match rest with
      | v :: rest' => parseArgsGo { a with maxPhaseRetries := jsParseInt v } positional rest'
      | [] => some ({ a with maxPhaseRetries := none }, positional)
    else if arg = "--model" then
      match rest with
      | v :: rest' => parseArgsGo { a with model := some v } positional rest'
      | [] => some ({ a with model := none }, positional)
    else if arg = "--working-dir" then
      match rest with
      | v :: rest' => parseArgsGo { a with workingDir := v } positional rest'
      | [] => none
    else if arg = "--max-turns" then
      match rest with
      | v :: rest' => parseArgsGo { a with maxTurns := jsParseInt v } positional rest'
      | [] => some ({ a with maxTurns := none }, positional)
    else if arg = "--continue-session" then
      match rest with
      | v :: rest' => parseArgsGo { a with continueSession := some v } positional rest'
      | [] => some ({ a with continueSession := none }, positional)
    else if arg = "--dry-run" then
      parseArgsGo { a with dryRun := true } positional rest
    else if arg = "--rate-limit-wait" then
      match rest with
      | v :: rest' => parseArgsGo { a with rateLimitWait := jsParseInt v } positional rest'
      | [] => some ({ a with rateLimitWait := none }, positional)
    else if arg = "--cli-path" then
      match rest with
      | v :: rest' => parseArgsGo { a with cliPath := some v } positional rest'
      | [] => some ({ a with cliPath := none }, positional)
    else if arg = "--verbose" ∨ arg = "-v" then
      parseArgsGo { a with verbose := true } positional rest
    else if arg = "--help" ∨ arg = "-h" then
      none
    else if litAt "--" arg.toList then
      parseArgsGo a positional rest
    else
      parseArgsGo a (positional ++ [arg]) rest

/-- JS `positional.join(' ')`. -/
def joinSpace : List String → String
  | [] => ""
  | [s] => s
  | s :: rest => s ++ " " ++ joinSpace rest

/-- `parseArgs(argv)` (argv here is `process.argv.slice(2)`). -/
def parseArgs (cwd : String) (argv : List String) : Option ParsedArgs :=
  match parseArgsGo (initialArgs cwd) [] argv with
  | none => none
  | some (a, positional) =>
    some (if positional = [] then a
          else { a with task := some (joinSpace positional) })

/-! ## Concrete fixtures used by the theorems below -/

/-- A small workflow file exercising every transition label. -/
def wfEx : Workflow :=
  parseWorkflowFile
    ("DISCOVER -> REQUIREMENTS [done]\nDISCOVER -> DISCOVER [retry]\n" ++
     "*TEST -> TEST [done_next_subtask]\n*TEST -> INTEGRATE [done]\n" ++
     "TEST -> TEST [retry]\nTEST -> INTEGRATE [retry_exhausted]\n" ++
     "INTEGRATE -> END [done]")

/-- The transitions record of `DISCOVER` in `wfEx`. -/
def tDiscoverEx : List (String × Option String) :=
  [("done", some "REQUIREMENTS"), ("retry", some "DISCOVER")]

/-- The transitions record of `TEST` in `wfEx`. -/
def tTestEx : List (String × Option String) :=
  [("done_next_subtask", some "TEST"), ("done", some "INTEGRATE"),
   ("retry", some "TEST"), ("retry_exhausted", some "INTEGRATE")]

def statusDoneEx : Status := ⟨none, "DONE", none, ""⟩

/-- The workflow phase order used by the repository (as listed by its
test suite), for the recovery example. -/
def exOrdered : List String :=
  ["DISCOVER", "REQUIREMENTS", "PRIORITIZE", "GATE_SCOPE", "DOMAIN", "DESIGN",
   "BDD", "PLAN", "PROTOTYPE", "GATE_DESIGN", "TEST", "IMPLEMENT", "VERIFY",
   "REFACTOR", "INTEGRATE", "GATE_QUALITY", "REVIEW", "INNOVATE"]

/-- A `.cloudforge` directory holding only a non-empty
`requirements.md`. -/
def exDir : RecoveryDir := ⟨true, [("requirements.md", 20)], false⟩

/-- A state whose last three recorded errors are identical. -/
def exState : WorkflowState :=
  { createInitialState "demo task" ⟨none, some 5, none, none⟩
      "2026-01-01T00:00:00.000Z" with
    lastErrors := ["boom", "boom", "boom"] }

/-! ## Helper lemmas -/

/-- If the sentinel literal occurs nowhere in the input, the status
regex cannot match. -/
theorem findStatusBlock_of_not_contains (l : List Char)
    (h : containsLit "CLOUDFORGE_STATUS:" l = false) : findStatusBlock l = none := by
  induction l with
  | nil => rfl
  | cons c rest ih =>
    rw [containsLit, scanFor, Bool.or_eq_false_iff] at h
    have h1 : stripLit "CLOUDFORGE_STATUS:" (c :: rest) = none := by
      rw [stripLit, if_neg]
      intro hpre
      rw [litAt] at h
      rw [hpre] at h
      exact absurd h.1 (by simp)
    rw [findStatusBlock, h1]
    exact ih h.2

/-- The first occurrence found by `jsIndexOf` lies outside any prefix
not containing the element. -/
theorem jsIndexOf_lt_of_mem_take (l : List String) (k : Nat) (p : String)
    (h : p ∈ l.take k) : jsIndexOf l p < (k : Int) := by
  induction l generalizing k with
  | nil => simp at h
  | cons x xs ih =>
    cases k with
    | zero => simp at h
    | succ k' =>
      rw [List.take_succ_cons] at h
      rw [jsIndexOf]
      by_cases hx : x = p
      · rw [if_pos hx]
        exact_mod_cast Nat.succ_pos k'
      · rw [if_neg hx]
        have hmem : p ∈ xs.take k' := by
          rcases List.mem_cons.mp h with h' | h'
          · exact absurd h'.symm hx
          · exact h'
        have hlt := ih k' hmem
        by_cases hr : jsIndexOf xs p = -1
        · rw [if_pos hr]
          have : (0 : Int) < (k' : Int) + 1 := by positivity
          omega
        · rw [if_neg hr]
          push_cast
          omega

/-- Elements surviving `dropWhile` come from the original list. -/
theorem mem_of_mem_dropWhile {α : Type} (p : α → Bool) (l : List α) (a : α)
    (h : a ∈ l.dropWhile p) : a ∈ l := by
  induction l with
  | nil => simp at h
  | cons x xs ih =>
    rw [List.dropWhile_cons] at h
    by_cases hx : p x = true
    · rw [if_pos hx] at h
      exact List.mem_cons_of_mem _ (ih h)
    · rw [if_neg hx] at h
      exact h

/-- Invariant of the `latestIndex` scan in `inferCompletedPhases`. -/
theorem latestFold_inv (ordered : List String) (det : List String) :
    ∀ acc : Int × Option String,
      acc.1 ≤ (det.foldl (latestStep ordered) acc).1 ∧
      (∀ q ∈ det, jsIndexOf ordered q ≤ (det.foldl (latestStep ordered) acc).1) ∧
      ((det.foldl (latestStep ordered) acc) = acc ∨
        ∃ p ∈ det, (det.foldl (latestStep ordered) acc).2 = some p ∧
          (det.foldl (latestStep ordered) acc).1 = jsIndexOf ordered p ∧
          acc.1 < (det.foldl (latestStep ordered) acc).1) := by
  induction det with
  | nil => intro acc; exact ⟨le_refl _, by simp, Or.inl rfl⟩
  | cons ph det ih =>
    intro acc
    simp only [List.foldl_cons]
    by_cases hlt : acc.1 < jsIndexOf ordered ph
    · have hstep : latestStep ordered acc ph = (jsIndexOf ordered ph, some ph) := by
        simp [latestStep, hlt]
      rw [hstep]
      obtain ⟨ha, hq, hc⟩ := ih (jsIndexOf ordered ph, some ph)
      refine ⟨le_trans (le_of_lt hlt) ha, ?_, ?_⟩
      · intro q hqmem
        rcases List.mem_cons.mp hqmem with h' | h'
        · rw [h']; exact ha
        · exact hq q h'
      · rcases hc with h' | ⟨p, hp, h1, h2, h3⟩
        · exact Or.inr ⟨ph, List.mem_cons_self _ _, by rw [h'],
            by rw [h'], by rw [h']; exact hlt⟩
        · exact Or.inr ⟨p, List.mem_cons_of_mem _ hp, h1, h2, lt_trans hlt h3⟩
    · have hstep : latestStep ordered acc ph = acc := by
        simp [latestStep, hlt]
      rw [hstep]
      obtain ⟨ha, hq, hc⟩ := ih acc
      refine ⟨ha, ?_, ?_⟩
      · intro q hqmem
        rcases List.mem_cons.mp hqmem with h' | h'
        · rw [h']; exact le_trans (le_of_not_lt hlt) ha
        · exact hq q h'
      · rcases hc with h' | ⟨p, hp, h1, h2, h3⟩
        · exact Or.inl h'
        · exact Or.inr ⟨p, List.mem_cons_of_mem _ hp, h1, h2, h3⟩

/-! ## Claim theorems -/

/-- C10: `recordIteration` touches only `iteration`, `history`,
`totalTokens` and `lastActivity`; every other state field — task, phase,
sessionId, currentSubTask, totalSubTasks, maxIterations, maxPhaseRetries,
model, completedPhases, consecutiveRetries, lastErrors, startedAt — is
returned unchanged. -/
theorem recordIteration_frame (now : String) (s : WorkflowState) (phase : String)
    (result : Option Status) (tokens : Option Tokens) :
    (recordIteration now s phase result tokens).task = s.task ∧
    (recordIteration now s phase result tokens).phase = s.phase ∧
    (recordIteration now s phase result tokens).sessionId = s.sessionId ∧
    (recordIteration now s phase result tokens).currentSubTask = s.currentSubTask ∧
    (recordIteration now s phase result tokens).totalSubTasks = s.totalSubTasks ∧
    (recordIteration now s phase result tokens).maxIterations = s.maxIterations ∧
    (recordIteration now s phase result tokens).maxPhaseRetries = s.maxPhaseRetries ∧
    (recordIteration now s phase result tokens).model = s.model ∧
    (recordIteration now s phase result tokens).completedPhases = s.completedPhases ∧
    (recordIteration now s phase result tokens).consecutiveRetries = s.consecutiveRetries ∧
    (recordIteration now s phase result tokens).lastErrors = s.lastErrors ∧
    (recordIteration now s phase result tokens).startedAt = s.startedAt :=
  ⟨rfl, rfl, rfl, rfl, rfl, rfl, rfl, rfl, rfl, rfl, rfl, rfl⟩

/-- C2: `checkCircuitBreaker` evaluates exactly the iteration cap, the
consecutive-retry count (threshold 3) and the repeated-identical-error
check (last three entries) in that order, returning the first halting
result or no-halt; and each individual check halts precisely under its
stated condition. -/
theorem checkCircuitBreaker_spec (s : WorkflowState) :
    (checkCircuitBreaker s =
      if (checkMaxIterations s).halt then checkMaxIterations s
      else if (checkConsecutiveRetries s 3).halt then checkConsecutiveRetries s 3
      else if (checkRepeatedErrors s 3).halt then checkRepeatedErrors s 3
      else ⟨false, none⟩) ∧
    ((checkMaxIterations s).halt = true ↔ s.maxIterations ≤ s.iteration) ∧
    ((checkConsecutiveRetries s 3).halt = true ↔ 3 ≤ s.consecutiveRetries) ∧
    (∀ (pre : List String) (a b c : String), s.lastErrors = pre ++ [a, b, c] →
      ((checkRepeatedErrors s 3).halt = true ↔ a = b ∧ b = c)) ∧
    (s.lastErrors.length < 3 → (checkRepeatedErrors s 3).halt = false) := by
  refine ⟨?_, ?_, ?_, ?_, ?_⟩
  · unfold checkCircuitBreaker
    cases h1 : (checkMaxIterations s).halt <;>
      cases h2 : (checkConsecutiveRetries s 3).halt <;>
      cases h3 : (checkRepeatedErrors s 3).halt <;>
      simp [List.find?, h1, h2, h3]
  · rw [checkMaxIterations]
    split <;> rename_i h <;> simp [h]
  · rw [checkConsecutiveRetries]
    split <;> rename_i h <;> simp [h]
  · intro pre a b c h
    have hlen : s.lastErrors.length = pre.length + 3 := by rw [h]; simp
    have hdrop : s.lastErrors.drop (s.lastErrors.length - 3) = [a, b, c] := by
      rw [hlen, Nat.add_sub_cancel, h, List.drop_left]
    have hallsame : allSameAsHead [a, b, c] = true ↔ (b = a ∧ c = a) := by
      rw [allSameAsHead]
      simp [List.all_cons]
    rw [checkRepeatedErrors, if_neg (by omega)]
    simp only [hdrop]
    by_cases hc : allSameAsHead [a, b, c] = true
    · rw [if_pos hc]
      have hcc := hallsame.mp hc
      exact ⟨fun _ => ⟨hcc.1.symm, hcc.1.trans hcc.2.symm⟩, fun _ => rfl⟩
    · rw [if_neg hc]
      refine ⟨fun hfalse => absurd hfalse (by simp), fun hab => ?_⟩
      exact absurd (hallsame.mpr ⟨hab.1.symm, (hab.1.trans hab.2).symm⟩) hc
  · intro h
    rw [checkRepeatedErrors, if_pos h]

/-- C2 witness: on a concrete state whose last three errors are all
`"boom"`, the repeated-error breaker halts. -/
theorem checkCircuitBreaker_spec_witness :
    (checkRepeatedErrors exState 3).halt = true ↔
      ("boom" = "boom" ∧ "boom" = "boom") :=
  (checkCircuitBreaker_spec exState).2.2.2.1 [] "boom" "boom" "boom" (by decide)

/-- C6 (code-bug evidence): launched with only a task argument,
`parseArgs` leaves `maxIterations` at its hard-coded default `100` — not
the `25` announced by the usage text and the spec — and the workflow
state created from those args carries `100`. -/
theorem maxIterations_default (cwd now : String) :
    ∃ a : ParsedArgs, parseArgs cwd ["Add JWT auth"] = some a ∧
      a.maxIterations = some 100 ∧
      (createInitialState "Add JWT auth"
        { initialPhase := some "DISCOVER", maxIterations := a.maxIterations,
          maxPhaseRetries := a.maxPhaseRetries, model := a.model }
        now).maxIterations = 100 ∧
      (100 : Int) ≠ 25 := by
  refine ⟨{ initialArgs cwd with task := some "Add JWT auth" }, ?_, rfl, rfl, by decide⟩
  rfl

/-- C9 counterexample: a workflow file that parses to zero phases is not
rejected — `getFirstPhase` silently returns the fallback `"DISCOVER"`
instead of failing. -/
theorem emptyWorkflow_firstPhase :
    (parseWorkflowFile "").phases = [] ∧
    getFirstPhase (parseWorkflowFile "") = "DISCOVER" := by
  constructor
  · rfl
  · rfl

/-- C9 (amended): a parse yielding zero phases proceeds silently: the
first phase falls back to `"DISCOVER"`, whose configuration lookup then
yields `null`, so the scheduler's very first `getNextPhase` returns
`null` and the run terminates normally instead of failing loudly. -/
theorem emptyWorkflow_silent :
    (parseWorkflowFile "").phases = [] ∧
    getFirstPhase (parseWorkflowFile "") = "DISCOVER" ∧
    getPhaseConfig (parseWorkflowFile "") "DISCOVER" = none ∧
    getNextPhase (parseWorkflowFile "") "DISCOVER" (some statusDoneEx) ⟨0, 0, 0, 3⟩ =
      none := by
  refine ⟨rfl, rfl, rfl, rfl⟩

/-- C3: `detectRateLimit` reports a rate limit exactly when the exit code
is nonzero and `stderr + " " + output` matches one of the fixed patterns,
or `output` alone matches one regardless of exit code; and on the spec's
boundary examples it fires for `"429"`, `"Rate limit exceeded"`,
`"overloaded"` and `"you've hit your limit resets 1am"` (nonzero exit)
but not for `"TypeError: undefined"`. -/
theorem detectRateLimit_spec :
    (∀ (exitCode : Int) (stderr output : String),
      detectRateLimit exitCode stderr output = true ↔
        ((exitCode ≠ 0 ∧ rateLimitTextMatches (stderr ++ " " ++ output) = true) ∨
          rateLimitTextMatches output = true)) ∧
    detectRateLimit 1 "429" "" = true ∧
    detectRateLimit 1 "Rate limit exceeded" "" = true ∧
    detectRateLimit 1 "overloaded" "" = true ∧
    detectRateLimit 1 "you\x27ve hit your limit resets 1am" "" = true ∧
    detectRateLimit 1 "TypeError: undefined" "" = false := by
  refine ⟨?_, by decide, by decide, by decide, by decide, by decide⟩
  intro exitCode stderr output
  rw [detectRateLimit]
  split <;> rename_i h
  · simp only [true_iff]
    exact Or.inl h
  · constructor
    · intro hb
      exact Or.inr hb
    · rintro (hl | hr)
      · exact absurd hl h
      · exact hr

/-- C5: the status parser returns `null` whenever the sentinel occurs
nowhere in the output; when it does return a status, the `result` field
is the upper-cased value of the block's `result` key, defaulting to
`"DONE"` when that key is absent (or empty after trimming), as the
concrete examples show. -/
theorem parseCloudForgeStatus_spec :
    (∀ output : String, containsLit "CLOUDFORGE_STATUS:" output.toList = false →
      parseCloudForgeStatus output = none) ∧
    (∀ (output : String) (st : Status), parseCloudForgeStatus output = some st →
      ∃ block, findStatusBlock output.toList = some block ∧
        st.result = jsToUpper (jsOrStr (lookupField (statusFields block) "result") "DONE")) ∧
    parseCloudForgeStatus "no status sentinel here" = none ∧
    parseCloudForgeStatus "CLOUDFORGE_STATUS:\nphase: TEST\nresult: needs_retry\n\n" =
      some ⟨some "TEST", "NEEDS_RETRY", none, ""⟩ ∧
    parseCloudForgeStatus "CLOUDFORGE_STATUS:\nphase: TEST\nsummary: fine\n\n" =
      some ⟨some "TEST", "DONE", none, "fine"⟩ := by
  refine ⟨?_, ?_, by decide, by decide, by decide⟩
  · intro output h
    rw [parseCloudForgeStatus, findStatusBlock_of_not_contains _ h]
  · intro output st hp
    cases hb : findStatusBlock output.toList with
    | none =>
      rw [parseCloudForgeStatus, hb] at hp
      exact absurd hp (by simp)
    | some block =>
      rw [parseCloudForgeStatus, hb] at hp
      refine ⟨block, rfl, ?_⟩
      injection hp with hst
      rw [← hst]

/-- C5 witness: a concrete output with no sentinel parses to `null`. -/
theorem parseCloudForgeStatus_spec_witness :
    parseCloudForgeStatus "agent produced no block" = none :=
  parseCloudForgeStatus_spec.1 "agent produced no block" (by decide)

/-- C8 counterexample: the field value `-3` is decoded by `parseInt` to
the negative integer `-3`, so a produced status can carry a negative
`tasksRemaining`, contradicting "null or a non-negative integer". -/
theorem tasksRemaining_negative :
    parseCloudForgeStatus "CLOUDFORGE_STATUS:\ntasks_remaining: -3" =
      some ⟨none, "DONE", some (-3), ""⟩ ∧ ((-3 : Int) < 0) :=
  ⟨by decide, by decide⟩

/-- C8 (amended): `tasksRemaining` is `null` or an integer — decoded via
`parseInt`-style decimal parsing, where non-numeric values become null
and a negative value can arise, but only when the field carries a minus
sign. -/
theorem tasksRemaining_decoding :
    (∀ (s : String) (n : Int), jsParseInt s = some n → n < 0 → '-' ∈ s.toList) ∧
    (∀ s : String, parseTasksRemaining (some s) = jsParseInt s) ∧
    parseTasksRemaining (some "7") = some 7 ∧
    parseTasksRemaining (some "12abc") = some 12 ∧
    parseTasksRemaining (some "abc") = none ∧
    parseTasksRemaining none = none ∧
    parseTasksRemaining (some "-3") = some (-3) := by
  refine ⟨?_, fun s => rfl, by decide, by decide, by decide, by decide, by decide⟩
  intro s n hp hneg
  rw [jsParseInt] at hp
  split at hp
  · exact absurd hp (by simp)
  · split at hp
    · -- leading '-' : the minus sign is a character of the input
      rename_i r heq
      have hmem : '-' ∈ s.toList.dropWhile jsIsSpace := by
        rw [heq]
        exact List.mem_cons_self _ _
      exact mem_of_mem_dropWhile _ _ _ hmem
    · -- leading '+' : the parsed value is a cast ℕ, hence non-negative
      injection hp with hn
      simp only [one_mul] at hn
      omega
    · -- no sign : likewise non-negative
      injection hp with hn
      simp only [one_mul] at hn
      omega

/-- C8 witness: `"-3"` decodes to a negative value and indeed contains a
minus sign. -/
theorem tasksRemaining_decoding_witness : '-' ∈ ("-3" : String).toList :=
  tasksRemaining_decoding.1 "-3" (-3) (by decide) (by decide)

/-- C1: for a phase found in the workflow, a status with result `DONE`
or `BLOCKED` takes the `done_next_subtask` target when that transition
is present (with a real target) and the sub-task cursor has room, else
the `done` target (`none` = terminate); `NEEDS_RETRY` takes the
`retry_exhausted` target once retries are exhausted, else repeats the
`DONE` choice when `done_next_subtask` is present, else the `retry`
target; an unknown phase yields `none`. -/
theorem getNextPhase_spec (wf : Workflow) (P : String) (st : Status) (ctx : Context) :
    (∀ config, getPhaseConfig wf P = some config →
      (((st.result = "DONE" ∨ st.result = "BLOCKED") →
        getNextPhase wf P (some st) ctx =
          (if truthyT config.transitions "done_next_subtask" ∧
              ctx.subTaskNumber < ctx.totalSubTasks
           then flatT config.transitions "done_next_subtask"
           else flatT config.transitions "done")) ∧
       (st.result = "NEEDS_RETRY" →
        getNextPhase wf P (some st) ctx =
          (if truthyT config.transitions "retry_exhausted" ∧
              ctx.maxRetries ≤ ctx.retryCount
           then flatT config.transitions "retry_exhausted"
           else if truthyT config.transitions "done_next_subtask" then
             (if ctx.subTaskNumber < ctx.totalSubTasks
              then flatT config.transitions "done_next_subtask"
              else flatT config.transitions "done")
           else flatT config.transitions "retry")))) ∧
    (getPhaseConfig wf P = none → getNextPhase wf P (some st) ctx = none) := by
  constructor
  · intro config hcfg
    constructor
    · intro hres
      rcases hres with h | h <;> simp [getNextPhase, hcfg, h, jsOrStr]
    · intro h
      simp [getNextPhase, hcfg, h, jsOrStr]
  · intro h
    simp [getNextPhase, h]

/-- C1 witness: in the sample workflow, `TEST` (a task-loop phase) with
result `DONE` and sub-task 1 of 3 advances through `done_next_subtask`
back to `TEST`. -/
theorem getNextPhase_spec_witness :
    getNextPhase wfEx "TEST" (some statusDoneEx) ⟨1, 3, 0, 3⟩ = some "TEST" := by
  have h := ((getNextPhase_spec wfEx "TEST" statusDoneEx ⟨1, 3, 0, 3⟩).1
    ⟨"TEST", true, tTestEx⟩ (by decide)).1 (Or.inl rfl)
  rw [h]
  decide

/-- C7 counterexample: `DISCOVER` in the sample workflow has a `retry`
transition (to `DISCOVER`) and no `done_next_subtask`, yet with a
*missing* status `getNextPhase` returns the `done` target
`REQUIREMENTS`, not the `retry` target the claim demands. -/
theorem getNextPhase_missingStatus_counterexample :
    getPhaseConfig wfEx "DISCOVER" = some ⟨"DISCOVER", false, tDiscoverEx⟩ ∧
    truthyT tDiscoverEx "retry" = true ∧
    lookupT tDiscoverEx "done_next_subtask" = none ∧
    flatT tDiscoverEx "retry" = some "DISCOVER" ∧
    getNextPhase wfEx "DISCOVER" none ⟨0, 0, 0, 3⟩ = some "REQUIREMENTS" ∧
    some "REQUIREMENTS" ≠ some "DISCOVER" := by
  decide

/-- C7 (amended): the `retry` target is taken for a *present* status
whose result is a nonempty string other than `DONE`, `BLOCKED` and
`NEEDS_RETRY`; a missing status (or empty result) defaults to `DONE`
and takes the done branch instead. -/
theorem getNextPhase_otherResults (wf : Workflow) (P : String) (ctx : Context)
    (config : PhaseConfig) (st : Status) :
    (getPhaseConfig wf P = some config →
      truthyT config.transitions "retry" = true →
      lookupT config.transitions "done_next_subtask" = none →
      st.result ≠ "" → st.result ≠ "DONE" → st.result ≠ "BLOCKED" →
      st.result ≠ "NEEDS_RETRY" →
      getNextPhase wf P (some st) ctx = flatT config.transitions "retry") ∧
    (getPhaseConfig wf P = some config →
      getNextPhase wf P none ctx =
        (if truthyT config.transitions "done_next_subtask" ∧
            ctx.subTaskNumber < ctx.totalSubTasks
         then flatT config.transitions "done_next_subtask"
         else flatT config.transitions "done")) := by
  constructor
  · intro hcfg htr hdns hne hD hB hN
    simp [getNextPhase, hcfg, jsOrStr, hne, hD, hB, hN]
  · intro hcfg
    simp [getNextPhase, hcfg, jsOrStr]

/-- C7 witness: a present status with the unrecognised result `"WEIRD"`
does take the `retry` target. -/
theorem getNextPhase_otherResults_witness :
    getNextPhase wfEx "DISCOVER" (some ⟨none, "WEIRD", none, ""⟩) ⟨0, 0, 0, 3⟩ =
      some "DISCOVER" := by
  have h := (getNextPhase_otherResults wfEx "DISCOVER" ⟨0, 0, 0, 3⟩
    ⟨"DISCOVER", false, tDiscoverEx⟩ ⟨none, "WEIRD", none, ""⟩).1
    (by decide) (by decide) (by decide) (by decide) (by decide) (by decide) (by decide)
  rw [h]
  decide

/-- C4: when recovery detects artifacts, the latest detected phase `p`
(maximal workflow index among detected phases) is returned as the resume
phase, the completed list is exactly the prefix of the workflow order
strictly before `p`'s first occurrence — `p` itself excluded — and on
the spec's example (only a non-empty `requirements.md`) this yields
`completedPhases = [DISCOVER]`, resume `REQUIREMENTS`, iteration `0`. -/
theorem inferCompletedPhases_spec (d : RecoveryDir) (ordered : List String)
    (p : String) :
    (d.cfDirExists = true →
      (inferCompletedPhases d ordered).latestDetectedPhase = some p →
      (p ∈ detectedPhases d ∧
       (∀ q ∈ detectedPhases d, jsIndexOf ordered q ≤ jsIndexOf ordered p) ∧
       (inferCompletedPhases d ordered).completedPhases =
         ordered.take (jsIndexOf ordered p).toNat ∧
       p ∉ (inferCompletedPhases d ordered).completedPhases ∧
       inferResumePhase (inferCompletedPhases d ordered).completedPhases (some p)
         ordered = some p)) ∧
    (inferCompletedPhases exDir exOrdered = ⟨["DISCOVER"], some "REQUIREMENTS"⟩ ∧
     inferResumePhase ["DISCOVER"] (some "REQUIREMENTS") exOrdered =
       some "REQUIREMENTS" ∧
     ∀ now : String, (createInitialState "Add dark mode"
       ⟨some "REQUIREMENTS", none, none, none⟩ now).iteration = 0) := by
  refine ⟨?_, by decide, by decide, fun now => rfl⟩
  intro hcf hlatest
  by_cases hdet : detectedPhases d = []
  · rw [inferCompletedPhases, hcf] at hlatest
    simp [hdet] at hlatest
  · have hval : inferCompletedPhases d ordered =
        ⟨ordered.take
          (List.foldl (latestStep ordered) (-1, none) (detectedPhases d)).1.toNat,
         (List.foldl (latestStep ordered) (-1, none) (detectedPhases d)).2⟩ := by
      rw [inferCompletedPhases, hcf]
      simp [hdet, latestFold]
    rw [hval] at hlatest
    replace hlatest :
        (List.foldl (latestStep ordered) (-1, none) (detectedPhases d)).2 = some p :=
      hlatest
    obtain ⟨hmono, hmax, hcase⟩ :=
      latestFold_inv ordered (detectedPhases d) (-1, none)
    rcases hcase with heq | ⟨p', hp'mem, h2, h1, h3⟩
    · rw [heq] at hlatest
      simp at hlatest
    · have hp : p' = p := Option.some.inj (h2.symm.trans hlatest)
      subst hp
      have h3' : (-1 : Int) <
          (List.foldl (latestStep ordered) (-1, none) (detectedPhases d)).1 := h3
      refine ⟨hp'mem, ?_, ?_, ?_, rfl⟩
      · intro q hq
        have hle := hmax q hq
        rw [h1] at hle
        exact hle
      · rw [hval]
        dsimp only
        rw [h1]
      · rw [hval]
        dsimp only
        intro hmem
        have hlt := jsIndexOf_lt_of_mem_take ordered
          (List.foldl (latestStep ordered) (-1, none) (detectedPhases d)).1.toNat
          p' hmem
        rw [h1] at hlt h3'
        omega

/-- C4 witness: applying the general statement to the example directory
detecting only `requirements.md`. -/
theorem inferCompletedPhases_spec_witness :
    "REQUIREMENTS" ∈ detectedPhases exDir ∧
    (inferCompletedPhases exDir exOrdered).completedPhases =
      exOrdered.take (jsIndexOf exOrdered "REQUIREMENTS").toNat ∧
    "REQUIREMENTS" ∉ (inferCompletedPhases exDir exOrdered).completedPhases := by
  have h := (inferCompletedPhases_spec exDir exOrdered "REQUIREMENTS").1
    (by decide) (by decide)
  exact ⟨h.1, h.2.2.1, h.2.2.2.1⟩

end CloudForge
